import Mathlib

/-!
Shallow embedding of the obsidian-view-mode plugin (src/main.ts).

The repository's single source file concatenates two versions of the plugin:
the current `ViewModePlugin` and an older `MyPlugin` draft.  Definitions below
are translated from the `ViewModePlugin` half unless their name starts with
`my`, in which case they come from the `MyPlugin` half.

JavaScript `Set<string>` is modelled as a `List String` used only through
membership (`setHas`), idempotent insertion (`setAdd`) and deletion of all
occurrences (`setDelete`).  The Obsidian host's live view state
(`view.getState()` / `view.setState(state, {history})`) is modelled as the
`liveMode` / `liveSource` fields of `World`, with a `HostCall` record capturing
the state object and history flag handed to the underlying setter.
-/

/-- `type ViewMode = 'read' | 'edit' | 'edit-source' | 'edit-preview' | 'lock'` -/
inductive ViewMode where
  | read
  | edit
  | editSource
  | editPreview
  | lock
deriving DecidableEq

/-- The two values of `state.mode`: `'preview' | 'source'`. -/
inductive DisplayMode where
  | preview
  | source
deriving DecidableEq

/-- A YAML frontmatter value: the code only distinguishes string values
(`typeof value === 'string'`) from everything else. -/
inductive YamlValue where
  | str (value : String)
  | other
deriving DecidableEq

/-- `interface FolderViewMode { folderPath: string; viewMode: ViewMode }` -/
structure FolderViewMode where
  folderPath : String
  viewMode : ViewMode
deriving DecidableEq

/-- The `customYamlNames` record of `ViewModeSettings`. -/
structure CustomYamlNames where
  read : String
  edit : String
  editSource : String
  editPreview : String
  lock : String
deriving DecidableEq

/-- `interface ViewModeSettings` (the `ViewModePlugin` settings). -/
structure ViewModeSettings where
  metaPropertyName : String
  showModeChangeNotification : Bool
  folderViewModes : List FolderViewMode
  customYamlNames : CustomYamlNames
deriving DecidableEq

/-- `DEFAULT_SETTINGS` of `ViewModePlugin`. -/
def DEFAULT_SETTINGS : ViewModeSettings :=
  { metaPropertyName := "view_mode"
    showModeChangeNotification := false
    folderViewModes := []
    customYamlNames :=
      { read := "read_only"
        edit := "edit_mode"
        editSource := "edit_source"
        editPreview := "edit_preview"
        lock := "locked" } }

/-- JS `Set.has`, on the list model of a set of strings. -/
def setHas (s : List String) (x : String) : Bool :=
  decide (x ∈ s)

/-- JS `Set.add` (idempotent insertion). -/
def setAdd (s : List String) (x : String) : List String :=
  if x ∈ s then s else s ++ [x]

/-- JS `Set.delete` (removes the element; on the list model, every occurrence). -/
def setDelete (s : List String) (x : String) : List String :=
  s.filter (fun y => decide (y ≠ x))

/-- JS object property lookup `props[key]` on a frontmatter record. -/
def lookupFM (props : List (String × YamlValue)) (key : String) : Option YamlValue :=
  (props.find? (fun kv => decide (kv.1 = key))).map (fun kv => kv.2)

/-- JS object property lookup on a string-valued record (`MyPlugin` frontmatter). -/
def lookupStr (props : List (String × String)) (key : String) : Option String :=
  (props.find? (fun kv => decide (kv.1 = key))).map (fun kv => kv.2)

/-- JS `s.startsWith(pre)`. -/
def strStartsWith (s pre : String) : Bool :=
  pre.data.isPrefixOf s.data

/-- Index of the last `'/'` in a character list (JS `lastIndexOf('/')`),
`none` when absent. -/
def lastSlashIdx : List Char → Option Nat
  | [] => none
  | c :: cs =>
    match lastSlashIdx cs with
    | some n => some (n + 1)
    | none => if c = '/' then some 0 else none

/-- `filePath.substring(0, filePath.lastIndexOf('/'))`: the containing folder of
a file path; `""` when the path has no `'/'` (JS `substring(0, -1) = ""`). -/
def parentOf (filePath : String) : String :=
  match lastSlashIdx filePath.data with
  | some n => String.mk (filePath.data.take n)
  | none => ""

/-- The loop condition of `getFolderViewMode`:
`folderPath === rule.folderPath || folderPath.startsWith(rule.folderPath + '/')`. -/
def ruleApplies (folderPath : String) (r : FolderViewMode) : Bool :=
  decide (folderPath = r.folderPath) || strStartsWith folderPath (r.folderPath ++ "/")

/-- The `for (const folderViewMode of this.settings.folderViewModes)` loop of
`getFolderViewMode`: first matching rule wins. -/
def getFolderViewModeAux (folderPath : String) : List FolderViewMode → Option ViewMode
  | [] => none
  | r :: rs =>
    if ruleApplies folderPath r then some r.viewMode
    else getFolderViewModeAux folderPath rs

/-- `ViewModePlugin.getFolderViewMode`. -/
def getFolderViewMode (s : ViewModeSettings) (filePath : String) : Option ViewMode :=
  getFolderViewModeAux (parentOf filePath) s.folderViewModes

/-- `ViewModePlugin.isValidViewMode`: a value is valid when it is a string equal
to one of the five configured tokens. -/
def isValidViewMode (s : ViewModeSettings) (value : YamlValue) : Bool :=
  match value with
  | .str v =>
    decide (v = s.customYamlNames.read ∨ v = s.customYamlNames.edit ∨
            v = s.customYamlNames.editSource ∨ v = s.customYamlNames.editPreview ∨
            v = s.customYamlNames.lock)
  | .other => false

/-- `ViewModePlugin.convertYamlValueToViewMode`. -/
def convertYamlValueToViewMode (s : ViewModeSettings) (value : String) : Option ViewMode :=
  if value = s.customYamlNames.read then some ViewMode.read
  else if value = s.customYamlNames.edit then some ViewMode.edit
  else if value = s.customYamlNames.editSource then some ViewMode.editSource
  else if value = s.customYamlNames.editPreview then some ViewMode.editPreview
  else if value = s.customYamlNames.lock then some ViewMode.lock
  else none

/-- The frontmatter part of the resolution logic shared by the `file-open`
handler, `checkAndEnforceLockedFiles` and `initializeLockedFiles`:
look up the configured property, keep it only when `isValidViewMode`. -/
def frontmatterViewMode (s : ViewModeSettings)
    (frontmatter : Option (List (String × YamlValue))) : Option ViewMode :=
  match frontmatter with
  | some props =>
    match lookupFM props s.metaPropertyName with
    | some frontmatterValue =>
      if isValidViewMode s frontmatterValue then
        match frontmatterValue with
        | .str value => convertYamlValueToViewMode s value
        | .other => none
      else none
    | none => none
  | none => none

/-- The full resolution logic of `ViewModePlugin` (frontmatter first, then
`getFolderViewMode`), as in the `file-open` handler and
`checkAndEnforceLockedFiles`. -/
def resolveViewMode (s : ViewModeSettings)
    (frontmatter : Option (List (String × YamlValue))) (filePath : String) :
    Option ViewMode :=
  match frontmatterViewMode s frontmatter with
  | some vm => some vm
  | none => getFolderViewMode s filePath

/-- The `ViewState` object handed to `view.setState`: the `mode` and `source`
fields, each possibly absent (JS `undefined`). -/
structure ViewStateReq where
  mode : Option DisplayMode
  source : Option Bool
deriving DecidableEq

/-- One call to the host's underlying `setState`: the (possibly rewritten)
state object and the `history` flag of the `ViewStateResult` argument. -/
structure HostCall where
  state : ViewStateReq
  history : Bool
deriving DecidableEq

/-- The patch status of an open `MarkdownView`: how many guard wrappers have
been installed around the host's original `setState`
(`_originalSetState` is saved exactly when `wrapDepth > 0`). -/
structure PatchState where
  wrapDepth : Nat
deriving DecidableEq

/-- `ViewModePlugin.patchViewStateMethod`: wrap `setState` only when
`_originalSetState` has not been saved yet. -/
def patchViewStateMethod (p : PatchState) : PatchState :=
  if p.wrapDepth = 0 then { wrapDepth := 1 } else p

/-- One guard layer of the patched `setState` (the arrow function installed by
`patchViewStateMethod`): given the two registry sets, `view.file?.path` and the
requested state, return the state forwarded to `_originalSetState` and whether
a notice was emitted. -/
def guardStep (lockedFiles temporarilyUnlockedFiles : List String)
    (file : Option String) (st : ViewStateReq) : ViewStateReq × Bool :=
  match file with
  | some filePath =>
    if setHas lockedFiles filePath && !setHas temporarilyUnlockedFiles filePath then
      match st.mode with
      | some m =>
        if m ≠ DisplayMode.preview then ({ st with mode := some DisplayMode.preview }, true)
        else (st, false)
      | none => (st, false)
    else (st, false)
  | none => (st, false)

/-- The whole mutable session state the claims touch: the plugin's settings and
two registry sets, the host's app config (`livePreview`), the active markdown
view (its file, its metadata-cache frontmatter) and its live view state. -/
structure World where
  settings : ViewModeSettings
  lockedFiles : List String
  temporarilyUnlockedFiles : List String
  livePreviewConfig : Bool
  activeFile : Option String
  activeFrontmatter : Option (List (String × YamlValue))
  liveMode : DisplayMode
  liveSource : Bool
deriving DecidableEq

/-- `ViewModePlugin.isFileLocked`. -/
def isFileLocked (w : World) (filePath : String) : Bool :=
  setHas w.lockedFiles filePath

/-- `locked.has(id) && !temporarilyUnlocked.has(id)` — the combined check used
at the guard and in the delayed layout-change handler. -/
def enforcedLockCheck (w : World) (filePath : String) : Bool :=
  setHas w.lockedFiles filePath && !setHas w.temporarilyUnlockedFiles filePath

/-- The tail of `setViewMode`: `await view.setState(state, { history: false })`,
which goes through the guard installed by `patchViewStateMethod` (called at the
top of `setViewMode`) and then through the host's original setter, which
applies the present fields to the live view state. -/
def finishSetState (w : World) (file : Option String) (st : ViewStateReq) :
    World × HostCall :=
  let r := guardStep w.lockedFiles w.temporarilyUnlockedFiles file st
  ({ w with
      liveMode := r.1.mode.getD w.liveMode
      liveSource := r.1.source.getD w.liveSource },
   { state := r.1, history := false })

/-- `ViewModePlugin.setViewMode` on a view whose file is `file`
(`viewMode.toLowerCase()` is the identity on the five `ViewMode` literals). -/
def setViewModeW (w : World) (file : Option String) (viewMode : ViewMode) :
    World × HostCall :=
  let st0 : ViewStateReq := { mode := some w.liveMode, source := some w.liveSource }
  match viewMode with
  | .read => finishSetState w file { st0 with mode := some DisplayMode.preview }
  | .edit =>
    finishSetState w file
      { st0 with mode := some DisplayMode.source, source := some (!w.livePreviewConfig) }
  | .editSource =>
    finishSetState w file { st0 with mode := some DisplayMode.source, source := some true }
  | .editPreview =>
    finishSetState w file { st0 with mode := some DisplayMode.source, source := some false }
  | .lock =>
    let filePath := file.getD ""
    let w1 := { w with lockedFiles := setAdd w.lockedFiles filePath }
    finishSetState w1 file { st0 with mode := some DisplayMode.preview }

/-- `ViewModePlugin.checkAndEnforceLockedFiles`.  `setState` calls here always
carry `mode = 'preview'`, which the guard forwards unchanged, so they are
modelled as directly setting `liveMode`. -/
def checkAndEnforceLockedFiles (w : World) : World :=
  match w.activeFile with
  | none => w
  | some filePath =>
    if setHas w.temporarilyUnlockedFiles filePath then w
    else
      let w1 :=
        if setHas w.lockedFiles filePath && decide (w.liveMode ≠ DisplayMode.preview) then
          { w with liveMode := DisplayMode.preview }
        else w
      let vm := resolveViewMode w1.settings w1.activeFrontmatter filePath
      if vm = some ViewMode.lock ∧ setHas w1.lockedFiles filePath = false ∧
          setHas w1.temporarilyUnlockedFiles filePath = false then
        let w2 := { w1 with lockedFiles := setAdd w1.lockedFiles filePath }
        if w2.liveMode ≠ DisplayMode.preview then { w2 with liveMode := DisplayMode.preview }
        else w2
      else w1

/-- `ViewModePlugin.handleLeafChange`
(`updateEditButtonsVisibility` only touches DOM classes, not modelled). -/
def handleLeafChangeW (w : World) : World :=
  if 0 < w.temporarilyUnlockedFiles.length then { w with temporarilyUnlockedFiles := [] }
  else w

/-- `ViewModePlugin.unlockFile`.  Its `setState` call goes through the guard
when the view has been patched; since `filePath` has just been deleted from
`lockedFiles`, the guard forwards the request unchanged either way. -/
def unlockFileW (w : World) (filePath : String) : World :=
  let w1 := { w with
      lockedFiles := setDelete w.lockedFiles filePath
      temporarilyUnlockedFiles := setAdd w.temporarilyUnlockedFiles filePath }
  match w1.activeFile with
  | some p =>
    if p = filePath then
      let st : ViewStateReq :=
        { mode := some DisplayMode.source, source := some (!w1.livePreviewConfig) }
      let r := guardStep w1.lockedFiles w1.temporarilyUnlockedFiles (some p) st
      { w1 with
          liveMode := r.1.mode.getD w1.liveMode
          liveSource := r.1.source.getD w1.liveSource }
    else w1
  | none => w1

/-- The `layout-change` handler registered at `onload` (first registration):
calls `checkAndEnforceLockedFiles` unconditionally. -/
def layoutChangeStep (w : World) : World :=
  checkAndEnforceLockedFiles w

/-- The `resize` handler: calls `checkAndEnforceLockedFiles` unconditionally. -/
def resizeStep (w : World) : World :=
  checkAndEnforceLockedFiles w

/-- The `active-leaf-change` handler: `checkAndEnforceLockedFiles()` then
`handleLeafChange()`. -/
def activeLeafChangeStep (w : World) : World :=
  handleLeafChangeW (checkAndEnforceLockedFiles w)

/-- The 1-second interval callback: run `checkAndEnforceLockedFiles` only when
`temporarilyUnlockedFiles.size === 0`. -/
def intervalTickStep (w : World) : World :=
  if w.temporarilyUnlockedFiles.length = 0 then checkAndEnforceLockedFiles w else w

/-- `MyPlugin`'s `FolderViewMode` (string-valued `viewMode`). -/
structure MyFolderViewMode where
  folderPath : String
  viewMode : String
deriving DecidableEq

/-- The fields of `MyPluginSettings` that resolution reads. -/
structure MyPluginSettings where
  metaPropertyName : String
  folderViewModes : List MyFolderViewMode
deriving DecidableEq

/-- Loop condition of `MyPlugin.getFolderViewMode` (same as the current one). -/
def myRuleApplies (folderPath : String) (r : MyFolderViewMode) : Bool :=
  decide (folderPath = r.folderPath) || strStartsWith folderPath (r.folderPath ++ "/")

/-- The rule loop of `MyPlugin.getFolderViewMode`. -/
def myGetFolderViewModeAux (folderPath : String) : List MyFolderViewMode → Option String
  | [] => none
  | r :: rs =>
    if myRuleApplies folderPath r then some r.viewMode
    else myGetFolderViewModeAux folderPath rs

/-- `MyPlugin.getFolderViewMode`. -/
def myGetFolderViewMode (s : MyPluginSettings) (filePath : String) : Option String :=
  myGetFolderViewModeAux (parentOf filePath) s.folderViewModes

/-- The resolution logic of `MyPlugin`'s `file-open` handler: the raw
frontmatter value is used without validation; `if (!viewMode)` treats the empty
string (JS falsy) like an absent property. -/
def myFileOpenViewMode (s : MyPluginSettings)
    (frontmatter : Option (List (String × String))) (filePath : String) :
    Option String :=
  let viewMode : Option String :=
    match frontmatter with
    | some props =>
      match lookupStr props s.metaPropertyName with
      | some v => if v = "" then none else some v
      | none => none
    | none => none
  match viewMode with
  | some v => some v
  | none => myGetFolderViewMode s filePath

/-- The state write requested by `MyPlugin.setViewMode` for a given string
`viewMode` (after `toLowerCase()`): `none` for the `default` branch, which
returns without calling `setState`. -/
def mySetViewModeWrite (livePreviewConfig : Bool) (viewMode : String) :
    Option (DisplayMode × Option Bool) :=
  let mode := String.mk (viewMode.data.map Char.toLower)
  if mode = "read" then some (DisplayMode.preview, none)
  else if mode = "edit" then some (DisplayMode.source, some (!livePreviewConfig))
  else if mode = "edit-source" then some (DisplayMode.source, some true)
  else if mode = "edit-preview" then some (DisplayMode.source, some false)
  else if mode = "lock" then some (DisplayMode.preview, none)
  else none

/-- Default settings with one folder rule `{folderPath: "Reference", viewMode: read}`. -/
def sReference : ViewModeSettings :=
  { DEFAULT_SETTINGS with folderViewModes := [⟨"Reference", ViewMode.read⟩] }

/-- Default settings with one folder rule whose `folderPath` is the empty string. -/
def sEmptyRule : ViewModeSettings :=
  { DEFAULT_SETTINGS with folderViewModes := [⟨"", ViewMode.read⟩] }

/-- Frontmatter `{view_mode: "locked"}` (the default lock token). -/
def propsLocked : List (String × YamlValue) := [("view_mode", YamlValue.str "locked")]

/-- Frontmatter `{view_mode: "bogus"}` (a token matching none of the five). -/
def propsBogus : List (String × YamlValue) := [("view_mode", YamlValue.str "bogus")]

/-- `MyPlugin` settings with one folder rule `{folderPath: "Reference", viewMode: "read"}`. -/
def mySettingsReference : MyPluginSettings :=
  { metaPropertyName := "view_mode", folderViewModes := [⟨"Reference", "read"⟩] }

/-- A quiescent world: default settings, empty registry sets, no active view. -/
def wBase : World :=
  { settings := DEFAULT_SETTINGS
    lockedFiles := []
    temporarilyUnlockedFiles := []
    livePreviewConfig := true
    activeFile := none
    activeFrontmatter := none
    liveMode := DisplayMode.preview
    liveSource := false }

/-- World in which `d.md` is locked and active but currently in source mode,
while a different document `u.md` is temporarily unlocked. -/
def wLayoutCex : World :=
  { wBase with
      lockedFiles := ["d.md"]
      temporarilyUnlockedFiles := ["u.md"]
      activeFile := some "d.md"
      liveMode := DisplayMode.source }

/-- World in which the active document `a.md` itself is temporarily unlocked. -/
def wTickSkip : World :=
  { wBase with
      temporarilyUnlockedFiles := ["a.md"]
      activeFile := some "a.md"
      liveMode := DisplayMode.source }

/-- World reached from `wBase` by `unlockFile("a.md")` followed by
`setViewMode(view_of "a.md", lock)`: `a.md` ends up in both registry sets. -/
def wAfterRelock : World :=
  (setViewModeW (unlockFileW wBase "a.md") (some "a.md") ViewMode.lock).1

/-- World in which the active document `d.md` is in `lockedFiles` (and not
temporarily unlocked). -/
def wLockedDoc : World :=
  { wBase with lockedFiles := ["d.md"], activeFile := some "d.md" }


/-! ### Helper lemmas about the set model -/

theorem setHas_true_iff {s : List String} {x : String} : setHas s x = true ↔ x ∈ s := by
  simp [setHas]

theorem mem_setAdd_self (s : List String) (x : String) : x ∈ setAdd s x := by
  unfold setAdd
  split_ifs with h
  · exact h
  · simp

theorem setHas_setAdd_self (s : List String) (x : String) : setHas (setAdd s x) x = true :=
  setHas_true_iff.mpr (mem_setAdd_self s x)

theorem setAdd_setAdd (s : List String) (x : String) : setAdd (setAdd s x) x = setAdd s x := by
  have h := mem_setAdd_self s x
  unfold setAdd at h ⊢
  rw [if_pos h]

theorem setHas_setDelete_self (s : List String) (x : String) :
    setHas (setDelete s x) x = false := by
  simp [setHas, setDelete, List.mem_filter]

theorem setDelete_setDelete (s : List String) (x : String) :
    setDelete (setDelete s x) x = setDelete s x := by
  simp [setDelete, List.filter_filter]

theorem setAdd_length_pos (s : List String) (x : String) : 0 < (setAdd s x).length := by
  unfold setAdd
  split_ifs with h
  · cases s with
    | nil => cases h
    | cons a t => simp
  · simp

/-! ### Helper lemmas about the folder-rule loop and the resolver -/

theorem getFolderViewModeAux_eq_find (folderPath : String) (rules : List FolderViewMode) :
    getFolderViewModeAux folderPath rules
      = (rules.find? (ruleApplies folderPath)).map FolderViewMode.viewMode := by
  induction rules with
  | nil => rfl
  | cons r rs ih =>
    unfold getFolderViewModeAux
    cases h : ruleApplies folderPath r with
    | true => rw [List.find?_cons_of_pos _ h]; simp [h]
    | false =>
      rw [List.find?_cons_of_neg _ (by simp [h])]
      simp [h, ih]

theorem getFolderViewModeAux_skip {folderPath : String} {r : FolderViewMode}
    (h : ruleApplies folderPath r = false) (l1 l2 : List FolderViewMode) :
    getFolderViewModeAux folderPath (l1 ++ r :: l2)
      = getFolderViewModeAux folderPath (l1 ++ l2) := by
  induction l1 with
  | nil => simp [getFolderViewModeAux, h]
  | cons a as ih =>
    unfold getFolderViewModeAux
    cases ha : ruleApplies folderPath a <;> simp [ha, ih]

theorem convert_isSome_of_valid {s : ViewModeSettings} {v : String}
    (h : isValidViewMode s (YamlValue.str v) = true) :
    (convertYamlValueToViewMode s v).isSome = true := by
  simp only [isValidViewMode, decide_eq_true_eq] at h
  unfold convertYamlValueToViewMode
  split_ifs with h1 h2 h3 h4 h5
  · rfl
  · rfl
  · rfl
  · rfl
  · rfl
  · rcases h with h | h | h | h | h <;> contradiction

/-! ### Helper lemmas about the setState guard -/

theorem guardStep_not_enforced {lockedFiles temporarilyUnlockedFiles : List String}
    {fp : String} (st : ViewStateReq)
    (h : (setHas lockedFiles fp && !setHas temporarilyUnlockedFiles fp) = false) :
    guardStep lockedFiles temporarilyUnlockedFiles (some fp) st = (st, false) := by
  simp [guardStep, h]

theorem guardStep_preview_mode {st : ViewStateReq}
    (lockedFiles temporarilyUnlockedFiles : List String) (fp : String)
    (h : st.mode = some DisplayMode.preview) :
    guardStep lockedFiles temporarilyUnlockedFiles (some fp) st = (st, false) := by
  simp [guardStep, h]

theorem handleLeafChangeW_eq (w : World) :
    handleLeafChangeW w = { w with temporarilyUnlockedFiles := [] } := by
  unfold handleLeafChangeW
  split_ifs with h
  · rfl
  · have hz : w.temporarilyUnlockedFiles = [] := by
      cases hl : w.temporarilyUnlockedFiles with
      | nil => rfl
      | cons a t => rw [hl] at h; simp at h
    cases w
    simp_all

theorem unlockFileW_fields (w : World) (p : String) :
    (unlockFileW w p).lockedFiles = setDelete w.lockedFiles p
    ∧ (unlockFileW w p).temporarilyUnlockedFiles = setAdd w.temporarilyUnlockedFiles p
    ∧ (unlockFileW w p).settings = w.settings
    ∧ (unlockFileW w p).activeFile = w.activeFile
    ∧ (unlockFileW w p).activeFrontmatter = w.activeFrontmatter
    ∧ (unlockFileW w p).livePreviewConfig = w.livePreviewConfig := by
  unfold unlockFileW
  cases h : w.activeFile with
  | none => simp [h]
  | some q =>
    simp only [h]
    split_ifs with hq <;> simp [h]

/-! ### Claim theorems -/

/-- C1: counterexample.  The claim says `checkAndEnforceLockedFiles` is skipped
entirely on every trigger whenever `temporarilyUnlockedFiles` is non-empty.  In
`wLayoutCex` the set is non-empty (`u.md`), yet the `layout-change` and
`resize` handlers still run the reconciliation, which forces the locked active
document `d.md` from source back to preview; only the 1-second interval tick
skips it. -/
theorem layoutChange_runs_despite_temp_unlock :
    0 < wLayoutCex.temporarilyUnlockedFiles.length
    ∧ wLayoutCex.liveMode = DisplayMode.source
    ∧ (layoutChangeStep wLayoutCex).liveMode = DisplayMode.preview
    ∧ decide (layoutChangeStep wLayoutCex = wLayoutCex) = false
    ∧ decide (resizeStep wLayoutCex = wLayoutCex) = false
    ∧ intervalTickStep wLayoutCex = wLayoutCex := by
  decide

/-- C1 (amended): the global suppression on a non-empty
`temporarilyUnlockedFiles` applies only to the 1-second interval tick; the
layout-change, active-leaf-change and resize handlers invoke
`checkAndEnforceLockedFiles` unconditionally, and that function only returns
early (per-document, not globally) when the active document itself is
temporarily unlocked. -/
theorem temp_unlock_skip_spec : ∀ (w : World) (p : String),
    (0 < w.temporarilyUnlockedFiles.length → intervalTickStep w = w)
    ∧ (w.activeFile = some p → setHas w.temporarilyUnlockedFiles p = true →
        checkAndEnforceLockedFiles w = w) := by
  intro w p
  constructor
  · intro h
    unfold intervalTickStep
    rw [if_neg (by omega)]
  · intro h1 h2
    unfold checkAndEnforceLockedFiles
    rw [h1]
    simp [h2]

/-- Witness for C1 (amended) at the concrete world `wTickSkip`. -/
theorem temp_unlock_skip_witness :
    0 < wTickSkip.temporarilyUnlockedFiles.length
    ∧ wTickSkip.activeFile = some "a.md"
    ∧ setHas wTickSkip.temporarilyUnlockedFiles "a.md" = true
    ∧ intervalTickStep wTickSkip = wTickSkip
    ∧ checkAndEnforceLockedFiles wTickSkip = wTickSkip := by
  have h := temp_unlock_skip_spec wTickSkip "a.md"
  exact ⟨by decide, by decide, by decide, h.1 (by decide), h.2 (by decide) (by decide)⟩

/-- C2: whenever the configured frontmatter property holds a string equal to
one of the five configured tokens, resolution returns the mode
`convertYamlValueToViewMode` maps that token to (characterised token by token
below, following the source's if-chain priority), for every settings value —
in particular regardless of the folder rules in `s.folderViewModes`. -/
theorem frontmatter_precedence :
    ∀ (s : ViewModeSettings) (props : List (String × YamlValue)) (path v : String),
    lookupFM props s.metaPropertyName = some (YamlValue.str v) →
    isValidViewMode s (YamlValue.str v) = true →
    (resolveViewMode s (some props) path = convertYamlValueToViewMode s v
     ∧ (convertYamlValueToViewMode s v).isSome = true
     ∧ (v = s.customYamlNames.read →
          resolveViewMode s (some props) path = some ViewMode.read)
     ∧ (v ≠ s.customYamlNames.read → v = s.customYamlNames.edit →
          resolveViewMode s (some props) path = some ViewMode.edit)
     ∧ (v ≠ s.customYamlNames.read → v ≠ s.customYamlNames.edit →
          v = s.customYamlNames.editSource →
          resolveViewMode s (some props) path = some ViewMode.editSource)
     ∧ (v ≠ s.customYamlNames.read → v ≠ s.customYamlNames.edit →
          v ≠ s.customYamlNames.editSource → v = s.customYamlNames.editPreview →
          resolveViewMode s (some props) path = some ViewMode.editPreview)
     ∧ (v ≠ s.customYamlNames.read → v ≠ s.customYamlNames.edit →
          v ≠ s.customYamlNames.editSource → v ≠ s.customYamlNames.editPreview →
          v = s.customYamlNames.lock →
          resolveViewMode s (some props) path = some ViewMode.lock)) := by
  intro s props path v h1 h2
  have hsome := convert_isSome_of_valid h2
  have hfm : frontmatterViewMode s (some props) = convertYamlValueToViewMode s v := by
    simp [frontmatterViewMode, h1, h2]
  have hres : resolveViewMode s (some props) path = convertYamlValueToViewMode s v := by
    unfold resolveViewMode
    rw [hfm]
    cases hc : convertYamlValueToViewMode s v with
    | some m => rfl
    | none => rw [hc] at hsome; simp at hsome
  refine ⟨hres, hsome, ?_, ?_, ?_, ?_, ?_⟩
  · intro hv
    subst hv
    rw [hres]
    simp [convertYamlValueToViewMode]
  · intro n1 hv
    subst hv
    rw [hres]
    simp [convertYamlValueToViewMode, n1]
  · intro n1 n2 hv
    subst hv
    rw [hres]
    simp [convertYamlValueToViewMode, n1, n2]
  · intro n1 n2 n3 hv
    subst hv
    rw [hres]
    simp [convertYamlValueToViewMode, n1, n2, n3]
  · intro n1 n2 n3 n4 hv
    subst hv
    rw [hres]
    simp [convertYamlValueToViewMode, n1, n2, n3, n4]

/-- Witness for C2: with the default tokens, a folder rule mapping `Reference`
to read, and frontmatter `{view_mode: "locked"}`, the document
`Reference/x.md` resolves to lock, not to the folder rule's read. -/
theorem frontmatter_precedence_witness :
    lookupFM propsLocked sReference.metaPropertyName = some (YamlValue.str "locked")
    ∧ isValidViewMode sReference (YamlValue.str "locked") = true
    ∧ resolveViewMode sReference (some propsLocked) "Reference/x.md" = some ViewMode.lock
    ∧ getFolderViewMode sReference "Reference/x.md" = some ViewMode.read := by
  have h := frontmatter_precedence sReference propsLocked "Reference/x.md" "locked"
    (by decide) (by decide)
  refine ⟨by decide, by decide, ?_, by decide⟩
  exact h.2.2.2.2.2.2 (by decide) (by decide) (by decide) (by decide) (by decide)

/-- C3: with no matching frontmatter token, resolution returns the mode of the
first folder rule (in list order) whose `folderPath` equals the document's
containing folder or is a `'/'`-terminated prefix of it; and a rule for
`Similar` never matches a document in folder `SimilarName`. -/
theorem folder_rule_first_match :
    ∀ (s : ViewModeSettings) (fm : Option (List (String × YamlValue)))
      (path : String) (m : ViewMode),
    frontmatterViewMode s fm = none →
    (resolveViewMode s fm path
        = (s.folderViewModes.find? (ruleApplies (parentOf path))).map FolderViewMode.viewMode
     ∧ ruleApplies "SimilarName" ⟨"Similar", m⟩ = false
     ∧ getFolderViewMode { s with folderViewModes := [⟨"Similar", m⟩] } "SimilarName/doc.md"
         = none) := by
  intro s fm path m h
  refine ⟨?_, ?_, ?_⟩
  · unfold resolveViewMode
    rw [h]
    exact getFolderViewModeAux_eq_find _ _
  · cases m <;> decide
  · show getFolderViewModeAux (parentOf "SimilarName/doc.md") [⟨"Similar", m⟩] = none
    cases m <;> decide

/-- Witness for C3: a document under `Reference/Sub/` with no frontmatter
resolves to the `Reference` rule's read mode. -/
theorem folder_rule_first_match_witness :
    frontmatterViewMode sReference none = none
    ∧ resolveViewMode sReference none "Reference/Sub/x.md"
        = (sReference.folderViewModes.find?
            (ruleApplies (parentOf "Reference/Sub/x.md"))).map FolderViewMode.viewMode
    ∧ resolveViewMode sReference none "Reference/Sub/x.md" = some ViewMode.read := by
  have h := folder_rule_first_match sReference none "Reference/Sub/x.md" ViewMode.read rfl
  exact ⟨rfl, h.1, by decide⟩

/-- C4: counterexample.  After `unlockFile("a.md")` followed by
`setViewMode(view, lock)` (the code's `markLocked`), `a.md` is in both
registry sets; there `isFileLocked` (the exposed lock query) returns `true`
while `locked.has(id) && !temporarilyUnlocked.has(id)` is `false`, so the
query is not the claimed conjunction. -/
theorem isFileLocked_formula_counterexample :
    isFileLocked wAfterRelock "a.md" = true
    ∧ enforcedLockCheck wAfterRelock "a.md" = false
    ∧ setHas wAfterRelock.lockedFiles "a.md" = true
    ∧ setHas wAfterRelock.temporarilyUnlockedFiles "a.md" = true
    ∧ decide (isFileLocked wAfterRelock "a.md" = enforcedLockCheck wAfterRelock "a.md")
        = false := by
  decide

/-- C4 (amended): `isFileLocked(id)` returns exactly `locked.has(id)`; it is
`true` immediately after `setViewMode(view, lock)` and `false` immediately
after `unlockFile(id)` (which also deletes `id` from `locked`), and it agrees
with `locked.has(id) && !temporarilyUnlocked.has(id)` whenever `id` is not in
`temporarilyUnlockedFiles`. -/
theorem isFileLocked_spec : ∀ (w : World) (p : String),
    isFileLocked w p = setHas w.lockedFiles p
    ∧ isFileLocked (setViewModeW w (some p) ViewMode.lock).1 p = true
    ∧ isFileLocked (unlockFileW w p) p = false
    ∧ (setHas w.temporarilyUnlockedFiles p = false →
        isFileLocked w p = enforcedLockCheck w p) := by
  intro w p
  refine ⟨rfl, ?_, ?_, ?_⟩
  · simp [setViewModeW, finishSetState, isFileLocked, setHas_setAdd_self]
  · rw [isFileLocked, (unlockFileW_fields w p).1]
    exact setHas_setDelete_self _ _
  · intro h
    rw [isFileLocked, enforcedLockCheck, h]
    simp

/-- Witness for C4 (amended) at `wBase` and `a.md`. -/
theorem isFileLocked_spec_witness :
    setHas wBase.temporarilyUnlockedFiles "a.md" = false
    ∧ isFileLocked (setViewModeW wBase (some "a.md") ViewMode.lock).1 "a.md" = true
    ∧ isFileLocked (unlockFileW wBase "a.md") "a.md" = false
    ∧ isFileLocked wBase "a.md" = enforcedLockCheck wBase "a.md" := by
  have h := isFileLocked_spec wBase "a.md"
  exact ⟨by decide, h.2.1, h.2.2.1, h.2.2.2 (by decide)⟩

/-- C5: `handleLeafChange` (the clearing step of the `active-leaf-change`
handler) empties the whole `temporarilyUnlockedFiles` set and changes nothing
else, and the full `active-leaf-change` handler always ends with the set
empty. -/
theorem leaf_change_clears_temp_unlocks : ∀ (w : World),
    handleLeafChangeW w = { w with temporarilyUnlockedFiles := [] }
    ∧ (handleLeafChangeW w).temporarilyUnlockedFiles = []
    ∧ (handleLeafChangeW w).lockedFiles = w.lockedFiles
    ∧ (handleLeafChangeW w).liveMode = w.liveMode
    ∧ (handleLeafChangeW w).liveSource = w.liveSource
    ∧ (activeLeafChangeStep w).temporarilyUnlockedFiles = [] := by
  intro w
  have h := handleLeafChangeW_eq w
  refine ⟨h, by rw [h], by rw [h], by rw [h], by rw [h], ?_⟩
  unfold activeLeafChangeStep
  rw [handleLeafChangeW_eq]

/-- C6: counterexample.  For a view on a document that is locked and not
temporarily unlocked, `setViewMode(view, edit)` does not leave the live state
in source mode as the table demands: the guard installed by
`patchViewStateMethod` (invoked by `setViewMode` itself) rewrites the request
to preview before it reaches the host's setter. -/
theorem setViewMode_edit_blocked_counterexample :
    enforcedLockCheck wLockedDoc "d.md" = true
    ∧ (setViewModeW wLockedDoc (some "d.md") ViewMode.edit).1.liveMode = DisplayMode.preview
    ∧ (setViewModeW wLockedDoc (some "d.md") ViewMode.edit).2.state.mode
        = some DisplayMode.preview
    ∧ decide ((setViewModeW wLockedDoc (some "d.md") ViewMode.edit).1.liveMode
        = DisplayMode.source) = false := by
  decide

/-- C6 (amended): provided the document is not enforced-locked at the moment of
the write, `setViewMode` realises exactly the mode table — read and lock give
preview (lock also adds the document to `lockedFiles`), edit gives source with
`source = !livePreviewConfig`, edit-source gives source/true, edit-preview
gives source/false — and every write hands `history = false` to the host's
state setter.  (When the document is enforced-locked, the guard rewrites
source-mode writes to preview, as the counterexample shows.) -/
theorem setViewMode_mode_table : ∀ (w : World) (p : String),
    enforcedLockCheck w p = false →
    ((setViewModeW w (some p) ViewMode.read).2.history = false
     ∧ (setViewModeW w (some p) ViewMode.edit).2.history = false
     ∧ (setViewModeW w (some p) ViewMode.editSource).2.history = false
     ∧ (setViewModeW w (some p) ViewMode.editPreview).2.history = false
     ∧ (setViewModeW w (some p) ViewMode.lock).2.history = false
     ∧ (setViewModeW w (some p) ViewMode.read).1.liveMode = DisplayMode.preview
     ∧ (setViewModeW w (some p) ViewMode.edit).1.liveMode = DisplayMode.source
     ∧ (setViewModeW w (some p) ViewMode.edit).1.liveSource = !w.livePreviewConfig
     ∧ (setViewModeW w (some p) ViewMode.editSource).1.liveMode = DisplayMode.source
     ∧ (setViewModeW w (some p) ViewMode.editSource).1.liveSource = true
     ∧ (setViewModeW w (some p) ViewMode.editPreview).1.liveMode = DisplayMode.source
     ∧ (setViewModeW w (some p) ViewMode.editPreview).1.liveSource = false
     ∧ (setViewModeW w (some p) ViewMode.lock).1.liveMode = DisplayMode.preview
     ∧ (setViewModeW w (some p) ViewMode.lock).1.lockedFiles = setAdd w.lockedFiles p
     ∧ isFileLocked (setViewModeW w (some p) ViewMode.lock).1 p = true) := by
  intro w p hE
  rw [enforcedLockCheck] at hE
  have hpass : ∀ st : ViewStateReq,
      guardStep w.lockedFiles w.temporarilyUnlockedFiles (some p) st = (st, false) :=
    fun st => guardStep_not_enforced st hE
  refine ⟨?_, ?_, ?_, ?_, ?_, ?_, ?_, ?_, ?_, ?_, ?_, ?_, ?_, ?_, ?_⟩
  · simp [setViewModeW, finishSetState]
  · simp [setViewModeW, finishSetState]
  · simp [setViewModeW, finishSetState]
  · simp [setViewModeW, finishSetState]
  · simp [setViewModeW, finishSetState]
  · simp [setViewModeW, finishSetState, guardStep_preview_mode]
  · simp [setViewModeW, finishSetState, hpass]
  · simp [setViewModeW, finishSetState, hpass]
  · simp [setViewModeW, finishSetState, hpass]
  · simp [setViewModeW, finishSetState, hpass]
  · simp [setViewModeW, finishSetState, hpass]
  · simp [setViewModeW, finishSetState, hpass]
  · simp [setViewModeW, finishSetState, guardStep_preview_mode]
  · simp [setViewModeW, finishSetState, guardStep_preview_mode]
  · simp [setViewModeW, finishSetState, guardStep_preview_mode, isFileLocked,
      setHas_setAdd_self]

/-- Witness for C6 (amended) at `wBase` (no document enforced-locked). -/
theorem setViewMode_mode_table_witness :
    enforcedLockCheck wBase "d.md" = false
    ∧ (setViewModeW wBase (some "d.md") ViewMode.edit).1.liveMode = DisplayMode.source
    ∧ (setViewModeW wBase (some "d.md") ViewMode.lock).1.liveMode = DisplayMode.preview
    ∧ isFileLocked (setViewModeW wBase (some "d.md") ViewMode.lock).1 "d.md" = true := by
  obtain ⟨-, -, -, -, -, -, h7, -, -, -, -, -, h13, -, h15⟩ :=
    setViewMode_mode_table wBase "d.md" (by decide)
  exact ⟨by decide, h7, h13, h15⟩

/-- C7: `patchViewStateMethod` is idempotent (a second call on the same view
does not re-wrap: the wrap depth goes from 0 to 1 and then stays), and the
installed guard rewrites exactly the requests whose `mode` field is present
and not preview on an enforced-locked document — emitting a notice and leaving
every other field (here `source`) untouched — while forwarding every other
request unchanged and without a notice. -/
theorem patch_and_guard_contract :
    ∀ (q : PatchState) (lockedFiles temporarilyUnlockedFiles : List String)
      (fp : String) (st : ViewStateReq) (m : DisplayMode),
    patchViewStateMethod (patchViewStateMethod q) = patchViewStateMethod q
    ∧ (patchViewStateMethod { wrapDepth := 0 }).wrapDepth = 1
    ∧ (guardStep lockedFiles temporarilyUnlockedFiles (some fp) st).1.source = st.source
    ∧ ((setHas lockedFiles fp && !setHas temporarilyUnlockedFiles fp) = true →
        st.mode = some m → m ≠ DisplayMode.preview →
        guardStep lockedFiles temporarilyUnlockedFiles (some fp) st
          = ({ st with mode := some DisplayMode.preview }, true))
    ∧ ((setHas lockedFiles fp && !setHas temporarilyUnlockedFiles fp) = false →
        guardStep lockedFiles temporarilyUnlockedFiles (some fp) st = (st, false))
    ∧ (st.mode = some DisplayMode.preview →
        guardStep lockedFiles temporarilyUnlockedFiles (some fp) st = (st, false))
    ∧ (st.mode = none →
        guardStep lockedFiles temporarilyUnlockedFiles (some fp) st = (st, false)) := by
  intro q locked temp fp st m
  refine ⟨?_, ?_, ?_, ?_, ?_, ?_, ?_⟩
  · by_cases h : q.wrapDepth = 0 <;> simp [patchViewStateMethod, h]
  · rfl
  · unfold guardStep
    dsimp only
    split_ifs with h
    · cases hm : st.mode with
      | none => simp [hm]
      | some m' => cases m' <;> simp [hm]
    · rfl
  · intro h1 h2 h3
    simp [guardStep, h1, h2, h3]
  · intro h
    exact guardStep_not_enforced st h
  · intro h
    exact guardStep_preview_mode locked temp fp h
  · intro h
    simp [guardStep, h]

/-- Witness for C7 at concrete inputs: a locked, not temporarily unlocked
document and a source-mode request. -/
theorem patch_and_guard_contract_witness :
    (setHas ["a"] "a" && !setHas [] "a") = true
    ∧ guardStep ["a"] [] (some "a") ⟨some DisplayMode.source, some true⟩
        = (⟨some DisplayMode.preview, some true⟩, true)
    ∧ guardStep [] [] (some "a") ⟨some DisplayMode.source, some true⟩
        = (⟨some DisplayMode.source, some true⟩, false)
    ∧ patchViewStateMethod (patchViewStateMethod ⟨0⟩) = patchViewStateMethod ⟨0⟩ := by
  have h := patch_and_guard_contract ⟨0⟩ ["a"] [] "a"
    ⟨some DisplayMode.source, some true⟩ DisplayMode.source
  have h2 := patch_and_guard_contract ⟨0⟩ [] [] "a"
    ⟨some DisplayMode.source, some true⟩ DisplayMode.source
  exact ⟨by decide, h.2.2.2.1 (by decide) rfl (by decide),
    h2.2.2.2.2.1 (by decide), h.1⟩

/-- C8: counterexample.  In the retained `MyPlugin` variant's `file-open`
handler (src/main.ts lines 847-861), an unrecognized non-empty frontmatter
token short-circuits folder-rule resolution instead of falling through: with
rule `{Reference ↦ "read"}` and frontmatter `{view_mode: "garbage"}`, the
resolved value is `"garbage"`, not the `"read"` obtained when the property is
absent, and the subsequent `setViewMode` ignores it (no state write). -/
theorem myplugin_unrecognized_token_blocks :
    myFileOpenViewMode mySettingsReference (some [("view_mode", "garbage")]) "Reference/x.md"
      = some "garbage"
    ∧ myFileOpenViewMode mySettingsReference none "Reference/x.md" = some "read"
    ∧ decide (myFileOpenViewMode mySettingsReference
        (some [("view_mode", "garbage")]) "Reference/x.md"
        = myFileOpenViewMode mySettingsReference none "Reference/x.md") = false
    ∧ mySetViewModeWrite true "garbage" = none := by
  decide

/-- C8 (amended): in the current `ViewModePlugin` resolution an unrecognized
string token is treated exactly as an absent property — folder rules are
scanned in list order and the first match wins; the older `MyPlugin` variant
retained in the same file instead lets any non-empty unrecognized token
short-circuit folder-rule resolution (see the counterexample). -/
theorem invalid_token_falls_through :
    ∀ (s : ViewModeSettings) (props : List (String × YamlValue)) (path v : String),
    lookupFM props s.metaPropertyName = some (YamlValue.str v) →
    isValidViewMode s (YamlValue.str v) = false →
    (resolveViewMode s (some props) path = resolveViewMode s none path
     ∧ resolveViewMode s none path
         = (s.folderViewModes.find? (ruleApplies (parentOf path))).map
             FolderViewMode.viewMode) := by
  intro s props path v h1 h2
  have hfm : frontmatterViewMode s (some props) = none := by
    simp [frontmatterViewMode, h1, h2]
  constructor
  · unfold resolveViewMode
    rw [hfm]
    rfl
  · unfold resolveViewMode frontmatterViewMode getFolderViewMode
    exact getFolderViewModeAux_eq_find _ _

/-- Witness for C8 (amended): the unrecognized token `"bogus"` falls through to
the `Reference ↦ read` folder rule in the current plugin's resolution. -/
theorem invalid_token_falls_through_witness :
    lookupFM propsBogus sReference.metaPropertyName = some (YamlValue.str "bogus")
    ∧ isValidViewMode sReference (YamlValue.str "bogus") = false
    ∧ resolveViewMode sReference (some propsBogus) "Reference/x.md"
        = resolveViewMode sReference none "Reference/x.md"
    ∧ resolveViewMode sReference (some propsBogus) "Reference/x.md" = some ViewMode.read := by
  have h := invalid_token_falls_through sReference propsBogus "Reference/x.md" "bogus"
    (by decide) (by decide)
  exact ⟨by decide, by decide, h.1, by decide⟩

/-- C9: counterexample.  A folder rule with empty `folderPath` does match
documents in the vault root (whose containing folder is the empty string):
`doc.md` resolves to the empty rule's read mode, not to the as-if-absent
result `none`. -/
theorem empty_folder_rule_matches_root :
    getFolderViewMode sEmptyRule "doc.md" = some ViewMode.read
    ∧ getFolderViewMode DEFAULT_SETTINGS "doc.md" = none
    ∧ decide (getFolderViewMode sEmptyRule "doc.md"
        = getFolderViewMode DEFAULT_SETTINGS "doc.md") = false := by
  decide

/-- C9 (amended): an empty-`folderPath` rule matches a document exactly when
its containing folder is the empty string (vault root) or itself starts with
`'/'`; for every other document the rule behaves as if absent — resolution
skips it wherever it sits in the rule list, with no crash. -/
theorem empty_folder_rule_spec :
    ∀ (m : ViewMode) (l1 l2 : List FolderViewMode) (path : String),
    ((parentOf path = "" ∨ strStartsWith (parentOf path) "/" = true) →
        ruleApplies (parentOf path) ⟨"", m⟩ = true)
    ∧ (parentOf path ≠ "" → strStartsWith (parentOf path) "/" = false →
        getFolderViewModeAux (parentOf path) (l1 ++ ⟨"", m⟩ :: l2)
          = getFolderViewModeAux (parentOf path) (l1 ++ l2)) := by
  intro m l1 l2 path
  have happ : ("" ++ "/" : String) = "/" := rfl
  constructor
  · intro h
    unfold ruleApplies
    rcases h with h | h
    · simp [h]
    · rw [happ, h]
      simp
  · intro h1 h2
    apply getFolderViewModeAux_skip
    unfold ruleApplies
    rw [happ, h2]
    simp [h1]

/-- Witness for C9 (amended): the empty rule matches the root document
`rootdoc.md` and is skipped for `C/doc.md`. -/
theorem empty_folder_rule_spec_witness :
    ruleApplies (parentOf "rootdoc.md") ⟨"", ViewMode.edit⟩ = true
    ∧ getFolderViewModeAux (parentOf "C/doc.md")
        ([⟨"A", ViewMode.read⟩] ++ ⟨"", ViewMode.edit⟩ :: [⟨"B", ViewMode.lock⟩])
        = getFolderViewModeAux (parentOf "C/doc.md")
            ([⟨"A", ViewMode.read⟩] ++ [⟨"B", ViewMode.lock⟩]) := by
  refine ⟨(empty_folder_rule_spec ViewMode.edit [] [] "rootdoc.md").1 (Or.inl (by decide)),
    (empty_folder_rule_spec ViewMode.edit [⟨"A", ViewMode.read⟩] [⟨"B", ViewMode.lock⟩]
      "C/doc.md").2 (by decide) (by decide)⟩

theorem unlockFileW_eq (w : World) (p : String) :
    unlockFileW w p =
      if w.activeFile = some p then
        { w with
            lockedFiles := setDelete w.lockedFiles p
            temporarilyUnlockedFiles := setAdd w.temporarilyUnlockedFiles p
            liveMode := DisplayMode.source
            liveSource := !w.livePreviewConfig }
      else
        { w with
            lockedFiles := setDelete w.lockedFiles p
            temporarilyUnlockedFiles := setAdd w.temporarilyUnlockedFiles p } := by
  have hg : guardStep (setDelete w.lockedFiles p) (setAdd w.temporarilyUnlockedFiles p)
      (some p) ⟨some DisplayMode.source, some (!w.livePreviewConfig)⟩
      = (⟨some DisplayMode.source, some (!w.livePreviewConfig)⟩, false) := by
    apply guardStep_not_enforced
    rw [setHas_setDelete_self]
    rfl
  unfold unlockFileW
  cases h : w.activeFile with
  | none => simp [h]
  | some q =>
    by_cases hq : q = p
    · subst hq
      simp [h, hg]
    · simp [h, hq]

/-- C10: `unlockFile(id)` has no precondition: it always removes `id` from
`lockedFiles` and adds it to `temporarilyUnlockedFiles` (which therefore
becomes non-empty, so the next interval tick performs no enforcement at all,
until an `active-leaf-change` clears the set again), and calling it twice in a
row yields the same state as calling it once. -/
theorem unlockFile_spec : ∀ (w : World) (p : String),
    (unlockFileW w p).lockedFiles = setDelete w.lockedFiles p
    ∧ (unlockFileW w p).temporarilyUnlockedFiles = setAdd w.temporarilyUnlockedFiles p
    ∧ setHas (unlockFileW w p).lockedFiles p = false
    ∧ setHas (unlockFileW w p).temporarilyUnlockedFiles p = true
    ∧ 0 < (unlockFileW w p).temporarilyUnlockedFiles.length
    ∧ intervalTickStep (unlockFileW w p) = unlockFileW w p
    ∧ (activeLeafChangeStep (unlockFileW w p)).temporarilyUnlockedFiles = []
    ∧ unlockFileW (unlockFileW w p) p = unlockFileW w p := by
  intro w p
  obtain ⟨hl, ht, hs, ha, hm, hp⟩ := unlockFileW_fields w p
  refine ⟨hl, ht, ?_, ?_, ?_, ?_, ?_, ?_⟩
  · rw [hl]
    exact setHas_setDelete_self _ _
  · rw [ht]
    exact setHas_setAdd_self _ _
  · rw [ht]
    exact setAdd_length_pos _ _
  · unfold intervalTickStep
    rw [ht]
    have := setAdd_length_pos w.temporarilyUnlockedFiles p
    rw [if_neg (by omega)]
  · unfold activeLeafChangeStep
    rw [handleLeafChangeW_eq]
  · by_cases hA : w.activeFile = some p
    · have h1 := unlockFileW_eq w p
      rw [if_pos hA] at h1
      have hact : (unlockFileW w p).activeFile = some p := by rw [ha, hA]
      have h2 := unlockFileW_eq (unlockFileW w p) p
      rw [if_pos hact] at h2
      rw [h2, h1]
      cases w
      simp_all [setDelete_setDelete, setAdd_setAdd]
    · have h1 := unlockFileW_eq w p
      rw [if_neg hA] at h1
      have hact : ¬(unlockFileW w p).activeFile = some p := by rw [ha]; exact hA
      have h2 := unlockFileW_eq (unlockFileW w p) p
      rw [if_neg hact] at h2
      rw [h2, h1]
      cases w
      simp_all [setDelete_setDelete, setAdd_setAdd]
